import Mathlib

/-!
Verification of the SDI consistency-check core (`owscheck.py`).

The Python source is shallowly embedded below.  Pure parts (the workspace
index built by `OwsServer._populateLayers`, the metadata-set computation of
`OwsServer.getMetadatas`, the scan loop of `OwsChecker.__init__`, the
endpoint cache of `CachedOwsServices`) are translated directly.  External
collaborators that live outside `src/` (the owslib capability client, the
`GeoMetadata` resolver, the `Inconsistency` record classes) are modelled from
the specification as explicit parameters or plain record types; raised Python
exceptions become `Except` error values.
-/

namespace OwsCheck

/-! ## Strings split on the first colon (`content.split(":", maxsplit=1)`) -/

/-- `true` iff the character list contains a colon. -/
def containsColon : List Char → Bool
  | [] => false
  | c :: cs => if c = ':' then true else containsColon cs

/-- The prefix of the character list before its first colon. -/
def beforeColon : List Char → List Char
  | [] => []
  | c :: cs => if c = ':' then [] else c :: beforeColon cs

/-- The remainder of the character list after its first colon. -/
def afterColon : List Char → List Char
  | [] => []
  | c :: cs => if c = ':' then cs else afterColon cs

/-- `true` iff the string contains at least one colon. -/
def hasColon (s : String) : Bool := containsColon s.data

/-- The workspace part of a raw layer name: the prefix before the first colon. -/
def wsPart (s : String) : String := String.mk (beforeColon s.data)

/-- The layer part of a raw layer name: the remainder after the first colon. -/
def layerPart (s : String) : String := String.mk (afterColon s.data)

/-- `content.split(":", maxsplit=1)` unpacked into `(workspace, layer)`;
`none` models the `ValueError` raised when the name contains no colon
(the split then yields a single part and tuple unpacking fails). -/
def splitMax1 (s : String) : Option (String × String) :=
  if containsColon s.data then some (wsPart s, layerPart s) else none

/-! ## Association-list dictionaries (Python `dict`, insertion ordered) -/

/-- First-match lookup in an insertion-ordered association list
(Python `d[key]`, with `none` for the `KeyError` case). -/
def lookupAssoc {β : Type} : List (String × β) → String → Option β
  | [], _ => none
  | (k, v) :: rest, key => if k = key then some v else lookupAssoc rest key

/-- `self.layersByWorkspace[workspace].append(layer)` with the `KeyError`
fallback `self.layersByWorkspace[workspace] = [layer]`: append to the
existing entry, or add a new key at the end (Python dicts keep insertion
order). -/
def insertLayer : List (String × List String) → String → String → List (String × List String)
  | [], workspace, layer => [(workspace, [layer])]
  | (k, v) :: rest, workspace, layer =>
    if k = workspace then (k, v ++ [layer]) :: rest
    else (k, v) :: insertLayer rest workspace layer

/-- One iteration of the loop body of `OwsServer._populateLayers`:
split the raw name, skip it when the workspace is not guessable. -/
def populateStep (d : List (String × List String)) (content : String) :
    List (String × List String) :=
  match splitMax1 content with
  | some (workspace, layer) => insertLayer d workspace layer
  | none => d

/-- `OwsServer._populateLayers`: build the workspace index from the raw
layer-name list of the GetCapabilities response. -/
def populateLayers (names : List String) : List (String × List String) :=
  names.foldl populateStep []

/-- Lookup defaulting to the empty list, used to state the index lemmas. -/
def lookupD (d : List (String × List String)) (ws : String) : List String :=
  (lookupAssoc d ws).getD []

/-- Total number of retained layer entries across all workspaces. -/
def sumLens (d : List (String × List String)) : Nat :=
  (d.map (fun kv => kv.2.length)).sum

/-- The layers a given workspace should receive, in first-seen order of the
raw list, duplicates kept: the layer parts of the colon-containing names
whose workspace part is `ws`. -/
def wsLayers (names : List String) (ws : String) : List String :=
  names.filterMap (fun s =>
    if hasColon s = true ∧ wsPart s = ws then some (layerPart s) else none)

/-! ### Lemmas about the workspace index -/

theorem lookupD_insertLayer (d : List (String × List String)) (w l ws : String) :
    lookupD (insertLayer d w l) ws
      = lookupD d ws ++ (if w = ws then [l] else []) := by
  induction d with
  | nil =>
    by_cases h : w = ws <;> simp [insertLayer, lookupD, lookupAssoc, h]
  | cons kv rest ih =>
    obtain ⟨k, v⟩ := kv
    by_cases hk : k = w
    · subst hk
      by_cases h : k = ws <;> simp [insertLayer, lookupD, lookupAssoc, h]
    · by_cases h : k = ws
      · subst h
        have hw : ¬ w = k := fun hc => hk hc.symm
        simp [insertLayer, lookupD, lookupAssoc, hk, hw]
      · simp only [insertLayer, if_neg hk, lookupD, lookupAssoc, if_neg h]
        simpa [lookupD] using ih

theorem splitMax1_of_hasColon {s : String} (h : hasColon s = true) :
    splitMax1 s = some (wsPart s, layerPart s) := by
  simp [splitMax1, hasColon] at h ⊢
  simp [h]

theorem splitMax1_of_not_hasColon {s : String} (h : hasColon s = false) :
    splitMax1 s = none := by
  simp [splitMax1, hasColon] at h ⊢
  simp [h]

theorem wsLayers_cons (s : String) (rest : List String) (ws : String) :
    wsLayers (s :: rest) ws
      = (if hasColon s = true ∧ wsPart s = ws then [layerPart s] else [])
          ++ wsLayers rest ws := by
  by_cases h : hasColon s = true ∧ wsPart s = ws <;>
    simp [wsLayers, List.filterMap_cons, h]

theorem lookupD_foldl (names : List String) :
    ∀ (acc : List (String × List String)) (ws : String),
      lookupD (names.foldl populateStep acc) ws = lookupD acc ws ++ wsLayers names ws := by
  induction names with
  | nil => intro acc ws; simp [wsLayers]
  | cons s rest ih =>
    intro acc ws
    rw [List.foldl_cons, ih]
    rcases h : hasColon s with hfalse | htrue
    · have hs : populateStep acc s = acc := by
        simp [populateStep, splitMax1_of_not_hasColon h]
      rw [hs, wsLayers_cons]
      simp [h]
    · have hs : populateStep acc s = insertLayer acc (wsPart s) (layerPart s) := by
        simp [populateStep, splitMax1_of_hasColon h]
      rw [hs, lookupD_insertLayer, wsLayers_cons]
      by_cases hws : wsPart s = ws <;> simp [h, hws, List.append_assoc]

theorem sumLens_insertLayer (d : List (String × List String)) (w l : String) :
    sumLens (insertLayer d w l) = sumLens d + 1 := by
  induction d with
  | nil => simp [insertLayer, sumLens]
  | cons kv rest ih =>
    obtain ⟨k, v⟩ := kv
    by_cases hk : k = w <;> simp [insertLayer, sumLens, hk] <;>
      first
        | omega
        | (simp [sumLens] at ih; omega)

theorem sumLens_foldl (names : List String) :
    ∀ acc : List (String × List String),
      sumLens (names.foldl populateStep acc)
        = sumLens acc + (names.filter (fun s => hasColon s)).length := by
  induction names with
  | nil => intro acc; simp
  | cons s rest ih =>
    intro acc
    rw [List.foldl_cons, ih]
    rcases h : hasColon s with hfalse | htrue
    · have hs : populateStep acc s = acc := by
        simp [populateStep, splitMax1_of_not_hasColon h]
      rw [hs, List.filter_cons]
      simp [h]
    · have hs : populateStep acc s = insertLayer acc (wsPart s) (layerPart s) := by
        simp [populateStep, splitMax1_of_hasColon h]
      rw [hs, sumLens_insertLayer, List.filter_cons]
      simp [h]
      omega

theorem populate_filter (names : List String) :
    ∀ acc : List (String × List String),
      names.foldl populateStep acc
        = (names.filter (fun s => hasColon s)).foldl populateStep acc := by
  induction names with
  | nil => intro acc; simp
  | cons s rest ih =>
    intro acc
    rw [List.foldl_cons, List.filter_cons]
    rcases h : hasColon s with hfalse | htrue
    · have hs : populateStep acc s = acc := by
        simp [populateStep, splitMax1_of_not_hasColon h]
      simp [h, hs, ih]
    · simp [h, ih]

theorem mem_wsLayers_self {names : List String} {s : String}
    (hmem : s ∈ names) (h : hasColon s = true) :
    layerPart s ∈ wsLayers names (wsPart s) := by
  induction names with
  | nil => cases hmem
  | cons t rest ih =>
    rw [wsLayers_cons]
    rcases List.mem_cons.mp hmem with heq | htl
    · subst heq
      simp [h]
    · exact List.mem_append_right _ (ih htl)

/-- Claim C1: building the workspace index from a raw layer-name list maps
each colon-containing name to an entry under its prefix-before-first-colon
whose layer list contains the remainder-after-first-colon; names without a
colon contribute nothing (the index built from the full list equals the one
built from the colon-containing names alone); the total number of retained
layer entries equals the number of colon-containing names; and each
workspace's list is exactly the layer parts of its names in first-seen order
of the raw list, with exact duplicates appended rather than deduplicated. -/
theorem populateLayers_correct (names : List String) :
    (∀ s ∈ names, hasColon s = true →
      ∃ ls, lookupAssoc (populateLayers names) (wsPart s) = some ls ∧ layerPart s ∈ ls) ∧
    populateLayers names = populateLayers (names.filter (fun s => hasColon s)) ∧
    sumLens (populateLayers names) = (names.filter (fun s => hasColon s)).length ∧
    (∀ ws ls, lookupAssoc (populateLayers names) ws = some ls → ls = wsLayers names ws) := by
  have hlookup : ∀ ws, lookupD (populateLayers names) ws = wsLayers names ws := by
    intro ws
    have := lookupD_foldl names [] ws
    simpa [populateLayers, lookupD, lookupAssoc] using this
  refine ⟨?_, ?_, ?_, ?_⟩
  · intro s hmem h
    have hm : layerPart s ∈ wsLayers names (wsPart s) := mem_wsLayers_self hmem h
    rcases hl : lookupAssoc (populateLayers names) (wsPart s) with _ | ls
    · exfalso
      have := hlookup (wsPart s)
      rw [lookupD, hl] at this
      simp at this
      rw [this] at hm
      cases hm
    · refine ⟨ls, rfl, ?_⟩
      have := hlookup (wsPart s)
      rw [lookupD, hl] at this
      simp at this
      rwa [this]
  · exact populate_filter names []
  · have := sumLens_foldl names []
    simpa [populateLayers, sumLens] using this
  · intro ws ls hl
    have := hlookup ws
    rw [lookupD, hl] at this
    simpa using this

/-- Witness for C1 on the spec's own scenario
`["ws1:roads", "ws1:rivers", "standalone"]`. -/
theorem populateLayers_correct_witness :
    (∃ ls, lookupAssoc (populateLayers ["ws1:roads", "ws1:rivers", "standalone"])
        (wsPart "ws1:roads") = some ls ∧ layerPart "ws1:roads" ∈ ls) ∧
    sumLens (populateLayers ["ws1:roads", "ws1:rivers", "standalone"]) = 2 := by
  have h := populateLayers_correct ["ws1:roads", "ws1:rivers", "standalone"]
  refine ⟨h.1 "ws1:roads" (by decide) (by decide), ?_⟩
  rw [h.2.2.1]
  decide

theorem containsColon_eq_false {t : List Char} (h : ':' ∉ t) : containsColon t = false := by
  induction t with
  | nil => rfl
  | cons c cs ih =>
    have hc : ¬ c = ':' := fun hc => h (hc ▸ List.mem_cons_self c cs)
    have hcs : ':' ∉ cs := fun hm => h (List.mem_cons_of_mem c hm)
    simp [containsColon, hc, ih hcs]

theorem containsColon_append_colon (t u : List Char) :
    containsColon (t ++ ':' :: u) = true := by
  induction t with
  | nil => simp [containsColon]
  | cons c cs ih =>
    by_cases hc : c = ':' <;> simp [containsColon, hc, ih]

theorem beforeColon_append_colon {t : List Char} (h : ':' ∉ t) (u : List Char) :
    beforeColon (t ++ ':' :: u) = t := by
  induction t with
  | nil => simp [beforeColon]
  | cons c cs ih =>
    have hc : ¬ c = ':' := fun hc => h (hc ▸ List.mem_cons_self c cs)
    have hcs : ':' ∉ cs := fun hm => h (List.mem_cons_of_mem c hm)
    simp [beforeColon, hc, ih hcs]

theorem afterColon_append_colon {t : List Char} (h : ':' ∉ t) (u : List Char) :
    afterColon (t ++ ':' :: u) = u := by
  induction t with
  | nil => simp [afterColon]
  | cons c cs ih =>
    have hc : ¬ c = ':' := fun hc => h (hc ▸ List.mem_cons_self c cs)
    have hcs : ':' ∉ cs := fun hm => h (List.mem_cons_of_mem c hm)
    simp [afterColon, hc, ih hcs]

/-- Claim C10: raw names with an empty part on either side of the colon are
retained by the workspace index builder, not dropped: a name `":rest"` is
indexed under the empty-string workspace with layer `"rest"`, and a name
`"t:"` (for colon-free `t`) is indexed under workspace `"t"` with the
empty-string layer; a name with no colon at all is excluded. -/
theorem populateLayers_empty_parts (t : List Char) (h : ':' ∉ t) :
    populateLayers [String.mk (':' :: t)] = [("", [String.mk t])] ∧
    populateLayers [String.mk (t ++ [':'])] = [(String.mk t, [""])] ∧
    populateLayers [String.mk t] = [] := by
  refine ⟨?_, ?_, ?_⟩
  · simp [populateLayers, populateStep, splitMax1, containsColon, wsPart, layerPart,
      beforeColon, afterColon, insertLayer]
  · have h1 : containsColon (t ++ [':']) = true := containsColon_append_colon t []
    have h2 : beforeColon (t ++ [':']) = t := beforeColon_append_colon h []
    have h3 : afterColon (t ++ [':']) = [] := afterColon_append_colon h []
    simp [populateLayers, populateStep, splitMax1, h1, h2, h3, wsPart, layerPart,
      insertLayer]
  · simp [populateLayers, populateStep, splitMax1, containsColon_eq_false h]

/-- Witness for C10 on the names `":layer"`, `"ws:"` and `"plain"`. -/
theorem populateLayers_empty_parts_witness :
    populateLayers [":layer"] = [("", ["layer"])] ∧
    populateLayers ["ws:"] = [("ws", [""])] ∧
    populateLayers ["plain"] = [] := by
  have h1 := (populateLayers_empty_parts "layer".data (by decide)).1
  have h2 := (populateLayers_empty_parts "ws".data (by decide)).2.1
  have h3 := (populateLayers_empty_parts "plain".data (by decide)).2.2
  exact ⟨h1, h2, h3⟩

/-! ## The capability endpoint and `OwsServer` -/

/-- One entry of a layer's `metadataUrls` list: the `i["format"]` and
`i["url"]` fields read by `OwsServer.getMetadatas`. -/
structure MetadataUrlRec where
  format : String
  url : String
deriving DecidableEq

/-- A layer record of the parsed capabilities document, as far as this core
reads it: its declared metadata links. -/
structure OwsLayerRec where
  metadataUrls : List MetadataUrlRec
deriving DecidableEq

/-- Modelled from the spec: the owslib `WebMapService`/`WebFeatureService`
object (`self._ows`) is an external collaborator; per §6 it exposes the
ordered layer names of the capabilities document and lookup by name.  Both
views come from one insertion-ordered `contents` dictionary, so iteration
(`for content in self._ows.contents`) yields the keys in order and
`self._ows[name]` is first-match key lookup (a `KeyError` becomes `none`). -/
structure OwsEndpoint where
  contents : List (String × OwsLayerRec)
deriving DecidableEq

/-- Modelled from the spec: the failure modes of endpoint construction
(§4.2): an HTTP-transport failure, a protocol-level service exception, a
response-shape (attribute-access) failure, or any other exception kind; each
carries its `str(e)` message. -/
inductive ConnectError where
  | httpError (msg : String)
  | serviceException (msg : String)
  | attributeError (msg : String)
  | otherError (msg : String)
deriving DecidableEq

/-- The `str(e)` text of a construction failure. -/
def ConnectError.message : ConnectError → String
  | .httpError m => m
  | .serviceException m => m
  | .attributeError m => m
  | .otherError m => m

/-- Modelled from the spec: the environment performing
`WebMapService(url, ...)` / `WebFeatureService(url, ...)` (network fetch and
capability parse, credentials included); it yields a parsed endpoint or a
classified construction failure.  The boolean selects WMS over WFS. -/
def ConnectEnv : Type := String → Bool → Except ConnectError OwsEndpoint

/-- `OwsServer.__init__`: connect (which may fail) and then run
`_populateLayers` on the layer names of the capabilities document. -/
structure OwsServer where
  _ows : OwsEndpoint
  layersByWorkspace : List (String × List String)
deriving DecidableEq

/-- Construct an `OwsServer`: the external construction of `self._ows`
followed by the pure `self._populateLayers()`. -/
def OwsServer.construct (env : ConnectEnv) (gsurl : String) (wms : Bool) :
    Except ConnectError OwsServer :=
  match env gsurl wms with
  | .error e => .error e
  | .ok ows => .ok { _ows := ows, layersByWorkspace := populateLayers (ows.contents.map Prod.fst) }

/-- The `(i["format"], i["url"])` pairs of a layer's declared metadata
links, in declaration order, duplicates included. -/
def layerMdPairs (l : OwsLayerRec) : List (String × String) :=
  l.metadataUrls.map (fun i => (i.format, i.url))

/-- `OwsServer.getMetadatas`: look the layer up on the endpoint
(`self._ows[layerName]`, `none` for `KeyError`) and return
`set([(i["format"], i["url"]) for i in l.metadataUrls])`.  The Python `set`
value is realized as the duplicate-free list `List.dedup` of the pairs; its
iteration order is unspecified in Python, so nothing below depends on the
order of this list, only on membership. -/
def OwsServer.getMetadatas (srv : OwsServer) (layerName : String) :
    Option (List (String × String)) :=
  (lookupAssoc srv._ows.contents layerName).map (fun l => (layerMdPairs l).dedup)

/-- Claim C8: the metadata reference collection returned for a layer has set
semantics: it is duplicate-free, its members are exactly the declared
(format, url) pairs of the layer, and two layers whose declared pair lists
are equal as sets (regardless of order or multiplicity) yield collections
that are equal as sets. -/
theorem getMetadatas_set_semantics (srv srv' : OwsServer) (name name' : String)
    (l l' : OwsLayerRec)
    (h : lookupAssoc srv._ows.contents name = some l)
    (h' : lookupAssoc srv'._ows.contents name' = some l')
    (hm : (layerMdPairs l).toFinset = (layerMdPairs l').toFinset) :
    ∃ ms ms', srv.getMetadatas name = some ms ∧ srv'.getMetadatas name' = some ms' ∧
      ms.Nodup ∧ (∀ p, p ∈ ms ↔ p ∈ layerMdPairs l) ∧ ms.toFinset = ms'.toFinset := by
  refine ⟨(layerMdPairs l).dedup, (layerMdPairs l').dedup, ?_, ?_, ?_, ?_, ?_⟩
  · simp [OwsServer.getMetadatas, h]
  · simp [OwsServer.getMetadatas, h']
  · exact List.nodup_dedup _
  · intro p
    exact List.mem_dedup
  · ext p
    have hp : p ∈ layerMdPairs l ↔ p ∈ layerMdPairs l' := by
      constructor
      · intro hx
        have : p ∈ (layerMdPairs l).toFinset := List.mem_toFinset.mpr hx
        rw [hm] at this
        exact List.mem_toFinset.mp this
      · intro hx
        have : p ∈ (layerMdPairs l').toFinset := List.mem_toFinset.mpr hx
        rw [← hm] at this
        exact List.mem_toFinset.mp this
    simp [List.mem_toFinset, List.mem_dedup, hp]

/-- A layer declaring the pair (iso, u1) twice and (dc, u2) once. -/
def layerDupMd : OwsLayerRec :=
  { metadataUrls := [⟨"iso", "u1"⟩, ⟨"iso", "u1"⟩, ⟨"dc", "u2"⟩] }

/-- The same pairs as `layerDupMd`, reordered and without the duplicate. -/
def layerPermMd : OwsLayerRec :=
  { metadataUrls := [⟨"dc", "u2"⟩, ⟨"iso", "u1"⟩] }

/-- A server whose only layer is `"ws:a"` with duplicated metadata pairs. -/
def srvDupMd : OwsServer :=
  { _ows := { contents := [("ws:a", layerDupMd)] }
    layersByWorkspace := populateLayers ["ws:a"] }

/-- A server whose only layer is `"ws:a"` with the reordered pair list. -/
def srvPermMd : OwsServer :=
  { _ows := { contents := [("ws:a", layerPermMd)] }
    layersByWorkspace := populateLayers ["ws:a"] }

/-- Witness for C8: the duplicated and the reordered declarations produce
collections with the same members. -/
theorem getMetadatas_set_semantics_witness :
    ∃ ms ms', srvDupMd.getMetadatas "ws:a" = some ms ∧
      srvPermMd.getMetadatas "ws:a" = some ms' ∧
      ms.Nodup ∧ (∀ p, p ∈ ms ↔ p ∈ layerMdPairs layerDupMd) ∧
      ms.toFinset = ms'.toFinset :=
  getMetadatas_set_semantics srvDupMd srvPermMd "ws:a" "ws:a" layerDupMd layerPermMd
    (by decide) (by decide) (by decide)

/-! ## The inconsistency taxonomy and the consistency checker -/

/-- Modelled from the spec: the record classes of `inconsistency.py` (not
under `src/`), per §3 "Inconsistency": `LayerNotFound` carries layer name,
service url, an optional metadata UUID and a message; `UnparseableCapabilities`
carries service url and message; `MetadataMissing` carries the fully
qualified layer name; `MetadataInvalid` carries a settable layer name and a
message. -/
inductive Inconsistency where
  | layerNotFound (layer_name : String) (layer_url : String)
      (md_uuid : Option String) (msg : String)
  | unparseableGetCapabilities (service_url : String) (msg : String)
  | metadataMissing (layer_name : String)
  | metadataInvalid (layer_name : Option String) (msg : String)
deriving DecidableEq

/-- A Python exception escaping an operation of this core: either one of the
`Inconsistency` records raised as an exception, or an exception of a kind
the code does not classify (it propagates uncaught). -/
inductive RunError where
  | raised (i : Inconsistency)
  | uncaught (msg : String)
deriving DecidableEq

/-- Modelled from the spec: the outcome of `GeoMetadata(mdUrl, mdFormat)`
(`geometadata.py` is not under `src/`; §6 Metadata Resolver): success, a
raised `MetadataInvalidInconsistency` (whose `layerName` the resolver may
leave unset), or a failure of any other kind. -/
inductive ResolveResult where
  | ok
  | invalid (layer_name : Option String) (msg : String)
  | otherFailure (msg : String)
deriving DecidableEq

/-- `true` iff the resolver outcome is a failure of an unclassified kind. -/
def ResolveResult.isOther : ResolveResult → Bool
  | .otherFailure _ => true
  | _ => false

/-- Modelled from the spec: the Metadata Resolver as a function of the
metadata url and format (credentials absorbed). -/
def ResolveOracle : Type := String → String → ResolveResult

/-- The inner loop `for (mdFormat, mdUrl) in mdUrls` of `OwsChecker.__init__`:
resolve each pair; a raised `MetadataInvalidInconsistency` is caught, gets
its `layerName` overwritten with the fully qualified name and is appended;
any other failure kind is not caught and aborts the run. -/
def checkMetadataPairs (resolve : ResolveOracle) (fq : String) :
    List (String × String) → Except RunError (List Inconsistency)
  | [] => .ok []
  | (mdFormat, mdUrl) :: rest =>
    match resolve mdUrl mdFormat with
    | .ok => checkMetadataPairs resolve fq rest
    | .invalid _ m =>
      match checkMetadataPairs resolve fq rest with
      | .ok incs => .ok (.metadataInvalid (some fq) m :: incs)
      | .error e => .error e
    | .otherFailure m => .error (.uncaught m)

/-- The body of the per-layer scan for one layer: build the fully qualified
name, fetch its metadata set (`KeyError` would propagate uncaught), record
`MetadataMissing` when the set is empty, and otherwise resolve every pair. -/
def scanLayer (resolve : ResolveOracle) (srv : OwsServer) (workspace layer : String) :
    Except RunError (List Inconsistency) :=
  match srv.getMetadatas (workspace ++ ":" ++ layer) with
  | none => .error (.uncaught ("KeyError: " ++ workspace ++ ":" ++ layer))
  | some mdUrls =>
    if mdUrls.length = 0 then .ok [.metadataMissing (workspace ++ ":" ++ layer)]
    else checkMetadataPairs resolve (workspace ++ ":" ++ layer) mdUrls

/-- The `for layer in layers` loop of the per-layer scan, accumulating
inconsistencies in discovery order; an uncaught failure aborts the run. -/
def scanLayers (resolve : ResolveOracle) (srv : OwsServer) (workspace : String) :
    List String → Except RunError (List Inconsistency)
  | [] => .ok []
  | layer :: rest =>
    match scanLayer resolve srv workspace layer with
    | .error e => .error e
    | .ok incs =>
      match scanLayers resolve srv workspace rest with
      | .error e => .error e
      | .ok more => .ok (incs ++ more)

/-- The `for workspace, layers in ... .items()` loop of the per-layer scan. -/
def scanWorkspaces (resolve : ResolveOracle) (srv : OwsServer) :
    List (String × List String) → Except RunError (List Inconsistency)
  | [] => .ok []
  | (workspace, layers) :: rest =>
    match scanLayers resolve srv workspace layers with
    | .error e => .error e
    | .ok incs =>
      match scanWorkspaces resolve srv rest with
      | .error e => .error e
      | .ok more => .ok (incs ++ more)

/-- The terminal state of `OwsChecker.__init__`: the connected primary
service and the accumulated inconsistency list. -/
structure OwsChecker where
  _service : OwsServer
  _inconsistencies : List Inconsistency
deriving DecidableEq

/-- `OwsChecker.__init__`: construct the primary `OwsServer` — any failure
(`except BaseException`) is re-raised as a single
`UnparseableGetCapabilitiesInconsistency` carrying `str(e)` — then run the
per-layer scan over the workspace index. -/
def OwsChecker.init (env : ConnectEnv) (resolve : ResolveOracle)
    (serviceUrl : String) (wms : Bool) : Except RunError OwsChecker :=
  match OwsServer.construct env serviceUrl wms with
  | .error e => .error (.raised (.unparseableGetCapabilities serviceUrl e.message))
  | .ok srv =>
    match scanWorkspaces resolve srv srv.layersByWorkspace with
    | .error e => .error e
    | .ok incs => .ok { _service := srv, _inconsistencies := incs }

/-- `OwsChecker.getInconsistencies`. -/
def OwsChecker.getInconsistencies (c : OwsChecker) : List Inconsistency :=
  c._inconsistencies

/-- The two counts `OwsChecker.getReport` reports. -/
structure Report where
  totalLayers : Nat
  inconsistencyCount : Nat
deriving DecidableEq

/-- `OwsChecker.getReport`: computes the total layer count over the
workspace index and reports it, via log lines, together with the length of
the inconsistency list; the logged summary is modelled as the returned
record. -/
def OwsChecker.getReport (c : OwsChecker) : Report :=
  { totalLayers := (c._service.layersByWorkspace.map (fun kv => kv.2.length)).sum
    inconsistencyCount := c._inconsistencies.length }

deriving instance DecidableEq for Except

/-! ### Claim C2: connect failure is fatal -/

/-- Claim C2: when construction of the checker's primary `OwsServer` fails
for any reason, `OwsChecker.__init__` raises a single
`UnparseableGetCapabilities` inconsistency carrying the original failure
message, and no checker (hence no inconsistency list) is produced for that
run. -/
theorem connect_failure_is_fatal (env : ConnectEnv) (resolve : ResolveOracle)
    (serviceUrl : String) (wms : Bool) (e : ConnectError)
    (henv : env serviceUrl wms = .error e) :
    OwsChecker.init env resolve serviceUrl wms
      = .error (.raised (.unparseableGetCapabilities serviceUrl e.message)) ∧
    ∀ c, OwsChecker.init env resolve serviceUrl wms ≠ Except.ok c := by
  have h1 : OwsChecker.init env resolve serviceUrl wms
      = .error (.raised (.unparseableGetCapabilities serviceUrl e.message)) := by
    simp [OwsChecker.init, OwsServer.construct, henv]
  refine ⟨h1, fun c hc => ?_⟩
  rw [h1] at hc
  cases hc

/-- A resolver for which every metadata document is valid. -/
def resolveAllOk : ResolveOracle := fun _ _ => .ok

/-- An environment whose capability fetch always fails with an
HTTP-transport error. -/
def envFailHttp : ConnectEnv := fun _ _ => .error (.httpError "boom")

/-- Witness for C2: a transport failure surfaces as
`UnparseableGetCapabilities` with the original message. -/
theorem connect_failure_is_fatal_witness :
    OwsChecker.init envFailHttp resolveAllOk "http://svc" true
      = .error (.raised (.unparseableGetCapabilities "http://svc" "boom")) ∧
    ∀ c, OwsChecker.init envFailHttp resolveAllOk "http://svc" true ≠ Except.ok c :=
  connect_failure_is_fatal envFailHttp resolveAllOk "http://svc" true
    (.httpError "boom") rfl

/-! ### Claim C3: empty metadata set records exactly one `MetadataMissing` -/

/-- Claim C3: for a layer whose metadata reference set is empty, the scan
appends exactly one `MetadataMissing` inconsistency carrying the fully
qualified `workspace:layer` name, attempts no metadata resolution for that
layer (the outcome is the same under every resolver), and continues with the
next layer. -/
theorem metadata_missing_recorded (resolve resolve' : ResolveOracle)
    (srv : OwsServer) (workspace layer : String) (rest : List String)
    (h : srv.getMetadatas (workspace ++ ":" ++ layer) = some []) :
    scanLayer resolve srv workspace layer
      = .ok [Inconsistency.metadataMissing (workspace ++ ":" ++ layer)] ∧
    scanLayer resolve srv workspace layer = scanLayer resolve' srv workspace layer ∧
    scanLayers resolve srv workspace (layer :: rest)
      = (match scanLayers resolve srv workspace rest with
         | .ok more => .ok (Inconsistency.metadataMissing (workspace ++ ":" ++ layer) :: more)
         | .error e => .error e) := by
  have h1 : scanLayer resolve srv workspace layer
      = .ok [Inconsistency.metadataMissing (workspace ++ ":" ++ layer)] := by
    simp [scanLayer, h]
  have h1' : scanLayer resolve' srv workspace layer
      = .ok [Inconsistency.metadataMissing (workspace ++ ":" ++ layer)] := by
    simp [scanLayer, h]
  refine ⟨h1, h1.trans h1'.symm, ?_⟩
  rw [scanLayers, h1]
  rcases hs : scanLayers resolve srv workspace rest with e | more <;> simp

/-- A server whose only layer `"ws:roads"` declares no metadata link. -/
def srvNoMd : OwsServer :=
  { _ows := { contents := [("ws:roads", { metadataUrls := [] })] }
    layersByWorkspace := populateLayers ["ws:roads"] }

/-- Witness for C3 on a server whose single layer has no metadata. -/
theorem metadata_missing_recorded_witness :
    scanLayer resolveAllOk srvNoMd "ws" "roads"
      = .ok [Inconsistency.metadataMissing ("ws" ++ ":" ++ "roads")] ∧
    scanLayers resolveAllOk srvNoMd "ws" ["roads"]
      = .ok [Inconsistency.metadataMissing ("ws" ++ ":" ++ "roads")] := by
  have h := metadata_missing_recorded resolveAllOk resolveAllOk srvNoMd "ws" "roads" []
    (by decide)
  refine ⟨h.1, ?_⟩
  rw [h.2.2]
  decide

/-! ### Claim C4: invalid metadata recorded per pair, other failures abort -/

/-- Claim C4: over a layer's metadata pairs, every pair whose resolution
raises the invalid-document classification contributes exactly one
`MetadataInvalid` inconsistency whose `layer_name` is overwritten with the
fully qualified layer name (whatever the resolver left there), provided no
pair fails with an unclassified kind; and a pair failing with any other kind
is not caught — the scan aborts with that failure. -/
theorem metadata_invalid_recorded (resolve : ResolveOracle) (fq : String)
    (pairs : List (String × String)) :
    ((∀ p ∈ pairs, (resolve p.2 p.1).isOther = false) →
      checkMetadataPairs resolve fq pairs
        = .ok (pairs.filterMap (fun p =>
            match resolve p.2 p.1 with
            | .invalid _ m => some (Inconsistency.metadataInvalid (some fq) m)
            | _ => none))) ∧
    (∀ mdFormat mdUrl m rest, resolve mdUrl mdFormat = .otherFailure m →
      checkMetadataPairs resolve fq ((mdFormat, mdUrl) :: rest)
        = .error (.uncaught m)) := by
  constructor
  · induction pairs with
    | nil => intro _; simp [checkMetadataPairs]
    | cons p rest ih =>
      intro hno
      obtain ⟨mdFormat, mdUrl⟩ := p
      have hp : (resolve mdUrl mdFormat).isOther = false :=
        hno (mdFormat, mdUrl) (List.mem_cons_self _ _)
      have hrest : ∀ q ∈ rest, (resolve q.2 q.1).isOther = false :=
        fun q hq => hno q (List.mem_cons_of_mem _ hq)
      rcases hr : resolve mdUrl mdFormat with _ | ⟨ln, m⟩ | m
      · simp only [checkMetadataPairs, hr, List.filterMap_cons]
        simpa using ih hrest
      · simp only [checkMetadataPairs, hr, List.filterMap_cons, ih hrest]
      · rw [hr] at hp
        simp [ResolveResult.isOther] at hp
  · intro mdFormat mdUrl m rest hr
    simp [checkMetadataPairs, hr]

/-- A resolver for which exactly the document at `"u2"` is invalid. -/
def resolveU2Invalid : ResolveOracle := fun url _ =>
  if url = "u2" then .invalid none "bad document" else .ok

/-- A resolver failing with an unclassified kind at `"u3"`. -/
def resolveU3Boom : ResolveOracle := fun url _ =>
  if url = "u3" then .otherFailure "io error" else .ok

/-- Witness for C4: of two pairs with one invalid document, exactly one
`MetadataInvalid` with the fully qualified name is recorded; an unclassified
failure aborts the scan. -/
theorem metadata_invalid_recorded_witness :
    checkMetadataPairs resolveU2Invalid "ws:roads" [("iso", "u1"), ("iso", "u2")]
      = .ok [Inconsistency.metadataInvalid (some "ws:roads") "bad document"] ∧
    checkMetadataPairs resolveU3Boom "ws:roads" [("iso", "u3"), ("iso", "u1")]
      = .error (.uncaught "io error") := by
  constructor
  · have h := (metadata_invalid_recorded resolveU2Invalid "ws:roads"
      [("iso", "u1"), ("iso", "u2")]).1 (by decide)
    rw [h]
    decide
  · exact (metadata_invalid_recorded resolveU3Boom "ws:roads" []).2
      "iso" "u3" "io error" [("iso", "u1")] rfl

/-! ### Claim C7: the report's two counts -/

/-- Claim C7: after a completed scan, `getReport` yields a summary whose
`totalLayers` is the sum of the per-workspace layer-list lengths of the
workspace index (the index built from the endpoint's raw names) and whose
`inconsistencyCount` is the length of the accumulated inconsistency list. -/
theorem getReport_counts (env : ConnectEnv) (resolve : ResolveOracle)
    (serviceUrl : String) (wms : Bool) (c : OwsChecker)
    (h : OwsChecker.init env resolve serviceUrl wms = .ok c) :
    (c.getReport).totalLayers = sumLens c._service.layersByWorkspace ∧
    (c.getReport).inconsistencyCount = c.getInconsistencies.length ∧
    ∀ ep, env serviceUrl wms = .ok ep →
      c._service.layersByWorkspace = populateLayers (ep.contents.map Prod.fst) := by
  refine ⟨rfl, rfl, ?_⟩
  intro ep hep
  simp only [OwsChecker.init, OwsServer.construct, hep] at h
  rcases hs : scanWorkspaces resolve
      { _ows := ep, layersByWorkspace := populateLayers (ep.contents.map Prod.fst) }
      (populateLayers (ep.contents.map Prod.fst)) with e | incs <;> rw [hs] at h
  · cases h
  · simp at h
    rw [← h]

/-- A one-layer endpoint with one metadata link. -/
def epOneLayer : OwsEndpoint :=
  { contents := [("ws:roads", { metadataUrls := [⟨"iso", "u1"⟩] })] }

/-- An environment always yielding `epOneLayer`. -/
def envOneLayer : ConnectEnv := fun _ _ => .ok epOneLayer

/-- The checker state `OwsChecker.init envOneLayer resolveAllOk` produces. -/
def chkOneLayer : OwsChecker :=
  { _service := { _ows := epOneLayer
                  layersByWorkspace := populateLayers (epOneLayer.contents.map Prod.fst) }
    _inconsistencies := [] }

/-- Witness for C7 on a run over a one-layer service with valid metadata. -/
theorem getReport_counts_witness :
    (chkOneLayer.getReport).totalLayers = sumLens chkOneLayer._service.layersByWorkspace ∧
    (chkOneLayer.getReport).inconsistencyCount = chkOneLayer.getInconsistencies.length ∧
    chkOneLayer._service.layersByWorkspace
      = populateLayers (epOneLayer.contents.map Prod.fst) := by
  have h := getReport_counts envOneLayer resolveAllOk "http://svc" true chkOneLayer
    (by decide)
  exact ⟨h.1, h.2.1, h.2.2 epOneLayer rfl⟩

/-! ## The layer existence cache (`CachedOwsServices`) -/

/-- `CachedOwsServices.__init__`: `self._servers = { "wms": {}, "wfs": {} }`,
modelled as two insertion-ordered association lists (credentials are
absorbed into the construction environment). -/
structure CachedOwsServices where
  wms : List (String × OwsServer)
  wfs : List (String × OwsServer)
deriving DecidableEq

/-- The fresh cache with both buckets empty. -/
def CachedOwsServices.empty : CachedOwsServices := { wms := [], wfs := [] }

/-- `self._servers["wms" if is_wms else "wfs"]`. -/
def CachedOwsServices.bucket (s : CachedOwsServices) (is_wms : Bool) :
    List (String × OwsServer) :=
  if is_wms then s.wms else s.wfs

/-- `servers_cache[url] = srv` on the bucket selected by the service kind
(a new dict key is appended at the end). -/
def CachedOwsServices.insertServer (s : CachedOwsServices) (is_wms : Bool)
    (url : String) (srv : OwsServer) : CachedOwsServices :=
  if is_wms then { s with wms := s.wms ++ [(url, srv)] }
  else { s with wfs := s.wfs ++ [(url, srv)] }

/-- `servers_cache[url].getLayer(name)` guarded by `except KeyError`: a
direct key lookup of `name` on the endpoint; on `KeyError` raise
`LayerNotFound` with no metadata UUID; success returns no value. -/
def getLayerCheck (srv : OwsServer) (url name : String) : Except RunError Unit :=
  match lookupAssoc srv._ows.contents name with
  | some _ => .ok ()
  | none => .error (.raised (.layerNotFound name url none "Layer not found on GS"))

/-- `CachedOwsServices._checkLayer`: on a cache miss construct the
`OwsServer` (inserting it only when construction succeeds — the assignment's
right-hand side raises first), wrapping an `HTTPError`, `ServiceException`
or `AttributeError` as `LayerNotFound` with a distinguishing message tag
while any other exception propagates; then perform the direct layer lookup.
The result pairs the raised-or-silent outcome with the updated cache. -/
def CachedOwsServices._checkLayer (s : CachedOwsServices) (env : ConnectEnv)
    (url name : String) (is_wms : Bool) :
    Except RunError Unit × CachedOwsServices :=
  match lookupAssoc (s.bucket is_wms) url with
  | some srv => (getLayerCheck srv url name, s)
  | none =>
    match OwsServer.construct env url is_wms with
    | .error (.httpError m) =>
      (.error (.raised (.layerNotFound name url none ("HTTPError: " ++ m))), s)
    | .error (.serviceException m) =>
      (.error (.raised (.layerNotFound name url none ("ServiceException: " ++ m))), s)
    | .error (.attributeError m) =>
      (.error (.raised (.layerNotFound name url none ("AttributeError: " ++ m))), s)
    | .error (.otherError m) => (.error (.uncaught m), s)
    | .ok srv => (getLayerCheck srv url name, s.insertServer is_wms url srv)

/-- `CachedOwsServices.checkWmsLayer`. -/
def CachedOwsServices.checkWmsLayer (s : CachedOwsServices) (env : ConnectEnv)
    (url name : String) : Except RunError Unit × CachedOwsServices :=
  s._checkLayer env url name true

/-- `CachedOwsServices.checkWfsLayer`. -/
def CachedOwsServices.checkWfsLayer (s : CachedOwsServices) (env : ConnectEnv)
    (url name : String) : Except RunError Unit × CachedOwsServices :=
  s._checkLayer env url name false

/-- One requested existence check: a `checkWmsLayer` (kind `true`) or
`checkWfsLayer` (kind `false`) invocation with its url and layer name. -/
structure CallSpec where
  url : String
  name : String
  kind : Bool
deriving DecidableEq

/-- Run a sequence of existence checks, threading the cache. -/
def runCalls (env : ConnectEnv) (s : CachedOwsServices) :
    List CallSpec → CachedOwsServices
  | [] => s
  | c :: rest =>
    runCalls env ((s._checkLayer env c.url c.name c.kind).2) rest

/-- `true` iff the Except value is a success. -/
def isOkB {ε α : Type} : Except ε α → Bool
  | .ok _ => true
  | .error _ => false

/-- `true` iff a call on the current cache state would construct a new
`ServiceEndpoint`: its url is absent from the selected bucket and the
construction succeeds. -/
def constructsHere (env : ConnectEnv) (s : CachedOwsServices) (c : CallSpec) : Bool :=
  (lookupAssoc (s.bucket c.kind) c.url).isNone && isOkB (env c.url c.kind)

/-- How many calls of the sequence construct a `ServiceEndpoint` for the
given (url, kind) pair, threading the cache through the calls. -/
def countConstructions (env : ConnectEnv) (s : CachedOwsServices)
    (url : String) (kind : Bool) : List CallSpec → Nat
  | [] => 0
  | c :: rest =>
    (if c.url = url ∧ c.kind = kind ∧ constructsHere env s c = true then 1 else 0)
      + countConstructions env ((s._checkLayer env c.url c.name c.kind).2) url kind rest

/-! ### Cache lemmas -/

theorem lookupAssoc_append_some {β : Type} {l : List (String × β)} {key : String}
    {v : β} (h : lookupAssoc l key = some v) (l2 : List (String × β)) :
    lookupAssoc (l ++ l2) key = some v := by
  induction l with
  | nil => cases h
  | cons kv rest ih =>
    obtain ⟨k, w⟩ := kv
    by_cases hk : k = key
    · rw [lookupAssoc, if_pos hk] at h
      simp [lookupAssoc, hk, h]
    · rw [lookupAssoc, if_neg hk] at h
      simp [lookupAssoc, hk, ih h]

theorem lookupAssoc_append_none {β : Type} {l : List (String × β)} {key : String}
    (h : lookupAssoc l key = none) (l2 : List (String × β)) :
    lookupAssoc (l ++ l2) key = lookupAssoc l2 key := by
  induction l with
  | nil => simp [lookupAssoc]
  | cons kv rest ih =>
    obtain ⟨k, w⟩ := kv
    by_cases hk : k = key
    · rw [lookupAssoc, if_pos hk] at h
      cases h
    · rw [lookupAssoc, if_neg hk] at h
      simp [lookupAssoc, hk, ih h]

theorem bucket_insertServer_self (s : CachedOwsServices) (k : Bool)
    (url : String) (srv : OwsServer) :
    (s.insertServer k url srv).bucket k = s.bucket k ++ [(url, srv)] := by
  cases k <;> simp [CachedOwsServices.insertServer, CachedOwsServices.bucket]

theorem bucket_insertServer_other (s : CachedOwsServices) {k k' : Bool}
    (h : ¬ k = k') (url : String) (srv : OwsServer) :
    (s.insertServer k url srv).bucket k' = s.bucket k' := by
  cases k <;> cases k' <;> first
    | exact absurd rfl h
    | simp [CachedOwsServices.insertServer, CachedOwsServices.bucket]

/-- Stepping the cache never removes or replaces an entry of either bucket. -/
theorem checkLayer_mono (env : ConnectEnv) (s : CachedOwsServices)
    (url name : String) (k k' : Bool) (u : String) (v : OwsServer)
    (h : lookupAssoc (s.bucket k') u = some v) :
    lookupAssoc (((s._checkLayer env url name k).2).bucket k') u = some v := by
  rw [CachedOwsServices._checkLayer]
  rcases hl : lookupAssoc (s.bucket k) url with _ | srv
  · rcases hc : OwsServer.construct env url k with e | srv
    · rcases e with m | m | m | m <;> simpa using h
    · by_cases hk : k = k'
      · subst hk
        simpa [bucket_insertServer_self] using lookupAssoc_append_some h _
      · simpa [bucket_insertServer_other s hk] using h
  · simpa using h

/-- A call that constructs an endpoint leaves the url present in its bucket. -/
theorem checkLayer_inserts (env : ConnectEnv) (s : CachedOwsServices)
    (url name : String) (k : Bool) (ep : OwsEndpoint)
    (hl : lookupAssoc (s.bucket k) url = none)
    (hc : env url k = .ok ep) :
    lookupAssoc (((s._checkLayer env url name k).2).bucket k) url
      = some { _ows := ep
               layersByWorkspace := populateLayers (ep.contents.map Prod.fst) } := by
  rw [CachedOwsServices._checkLayer, hl, OwsServer.construct, hc]
  simp only [bucket_insertServer_self]
  rw [lookupAssoc_append_none hl]
  simp [lookupAssoc]

/-- After any call, a (url, kind) pair already present stays present. -/
theorem runCalls_mono (env : ConnectEnv) (calls : List CallSpec) :
    ∀ (s : CachedOwsServices) (k : Bool) (u : String) (v : OwsServer),
      lookupAssoc (s.bucket k) u = some v →
      lookupAssoc ((runCalls env s calls).bucket k) u = some v := by
  induction calls with
  | nil => intro s k u v h; simpa [runCalls] using h
  | cons c rest ih =>
    intro s k u v h
    exact ih _ k u v (checkLayer_mono env s c.url c.name c.kind k u v h)

/-- No construction for (url, kind) happens while the pair is cached. -/
theorem countConstructions_zero (env : ConnectEnv) (calls : List CallSpec) :
    ∀ (s : CachedOwsServices) (url : String) (kind : Bool),
      (lookupAssoc (s.bucket kind) url).isSome = true →
      countConstructions env s url kind calls = 0 := by
  induction calls with
  | nil => intro s url kind _; rfl
  | cons c rest ih =>
    intro s url kind h
    rcases hv : lookupAssoc (s.bucket kind) url with _ | v
    · rw [hv] at h
      cases h
    · rw [countConstructions]
      have hnext : lookupAssoc (((s._checkLayer env c.url c.name c.kind).2).bucket kind) url
          = some v := checkLayer_mono env s c.url c.name c.kind kind url v hv
      have hrest : countConstructions env ((s._checkLayer env c.url c.name c.kind).2)
          url kind rest = 0 := by
        apply ih
        rw [hnext]
        rfl
      have hzero : (if c.url = url ∧ c.kind = kind ∧ constructsHere env s c = true
          then 1 else 0) = 0 := by
        by_cases hcase : c.url = url ∧ c.kind = kind ∧ constructsHere env s c = true
        · exfalso
          obtain ⟨h1, h2, h3⟩ := hcase
          rw [constructsHere, h1, h2, hv] at h3
          simp [Option.isNone] at h3
        · rw [if_neg hcase]
      rw [hzero, hrest]

/-- At most one construction for a fixed (url, kind) over any call list. -/
theorem countConstructions_le_one (env : ConnectEnv) (calls : List CallSpec) :
    ∀ (s : CachedOwsServices) (url : String) (kind : Bool),
      countConstructions env s url kind calls ≤ 1 := by
  induction calls with
  | nil => intro s url kind; simp [countConstructions]
  | cons c rest ih =>
    intro s url kind
    rw [countConstructions]
    by_cases hcase : c.url = url ∧ c.kind = kind ∧ constructsHere env s c = true
    · obtain ⟨h1, h2, h3⟩ := hcase
      rw [constructsHere] at h3
      have hnone : lookupAssoc (s.bucket c.kind) c.url = none := by
        rcases hv : lookupAssoc (s.bucket c.kind) c.url with _ | v
        · rfl
        · rw [hv] at h3
          simp [Option.isNone] at h3
      have hok : isOkB (env c.url c.kind) = true := by
        rcases he : env c.url c.kind with e | ep
        · rw [he] at h3
          simp [Option.isNone, isOkB] at h3
        · rfl
      rcases he : env c.url c.kind with e | ep
      · rw [he] at hok
        cases hok
      · have hins := checkLayer_inserts env s c.url c.name c.kind ep hnone he
        have hrest : countConstructions env ((s._checkLayer env c.url c.name c.kind).2)
            url kind rest = 0 := by
          apply countConstructions_zero
          rw [h1, h2] at hins ⊢
          rw [hins]
          rfl
        rw [if_pos ⟨h1, h2, by rw [constructsHere]; exact h3⟩, hrest]
    · rw [if_neg hcase]
      simpa using ih ((s._checkLayer env c.url c.name c.kind).2) url kind

/-! ### Claim C5: at most one endpoint per (url, kind) -/

/-- Claim C5: the cache constructs at most one `ServiceEndpoint` per
distinct (url, kind) pair across any sequence of existence checks started
on the empty cache; a step never removes or replaces an entry of the bucket
selected by the kind; and when the url is already cached for that kind the
call leaves the cache unchanged and its outcome does not depend on the
construction environment (the cached endpoint is reused, nothing is
fetched). -/
theorem cache_at_most_one_endpoint (env : ConnectEnv) :
    (∀ (url : String) (kind : Bool) (calls : List CallSpec),
      countConstructions env CachedOwsServices.empty url kind calls ≤ 1) ∧
    (∀ (s : CachedOwsServices) (url name : String) (k : Bool) (u : String)
        (v : OwsServer), lookupAssoc (s.bucket k) u = some v →
      lookupAssoc (((s._checkLayer env url name k).2).bucket k) u = some v) ∧
    (∀ (s : CachedOwsServices) (url name : String) (k : Bool) (srv : OwsServer),
      lookupAssoc (s.bucket k) url = some srv →
      (s._checkLayer env url name k).2 = s ∧
      ∀ env', s._checkLayer env url name k = s._checkLayer env' url name k) := by
  refine ⟨?_, ?_, ?_⟩
  · intro url kind calls
    exact countConstructions_le_one env calls CachedOwsServices.empty url kind
  · intro s url name k u v h
    exact checkLayer_mono env s url name k k u v h
  · intro s url name k srv h
    constructor
    · rw [CachedOwsServices._checkLayer, h]
    · intro env'
      rw [CachedOwsServices._checkLayer, h, CachedOwsServices._checkLayer, h]

/-- A cache already holding a WMS endpoint for `"http://svc/a"`. -/
def cacheWithA : CachedOwsServices :=
  { wms := [("http://svc/a",
      { _ows := epOneLayer
        layersByWorkspace := populateLayers (epOneLayer.contents.map Prod.fst) })]
    wfs := [] }

/-- Witness for C5: two identical calls construct at most one endpoint, and
a call on a cached url leaves the cache unchanged with an outcome
independent of the environment. -/
theorem cache_at_most_one_endpoint_witness :
    countConstructions envOneLayer CachedOwsServices.empty "http://svc/a" true
      [⟨"http://svc/a", "ws:roads", true⟩, ⟨"http://svc/a", "ws:roads", true⟩] ≤ 1 ∧
    (cacheWithA._checkLayer envOneLayer "http://svc/a" "ws:roads" true).2 = cacheWithA ∧
    cacheWithA._checkLayer envOneLayer "http://svc/a" "ws:roads" true
      = cacheWithA._checkLayer envFailHttp "http://svc/a" "ws:roads" true := by
  have h := cache_at_most_one_endpoint envOneLayer
  refine ⟨h.1 "http://svc/a" true _, ?_, ?_⟩
  · exact (h.2.2 cacheWithA "http://svc/a" "ws:roads" true _ rfl).1
  · exact (h.2.2 cacheWithA "http://svc/a" "ws:roads" true _ rfl).2 envFailHttp

/-! ### Claim C6: when `LayerNotFound` is raised -/

/-- Claim C6: `_checkLayer` raises `LayerNotFound` exactly in these cases:
a cache-miss construction failing with an HTTP-transport, service-exception
or response-shape (attribute) failure — the same inconsistency kind with a
distinguishing message tag — or the direct key lookup of the name on the
resolved endpoint failing, which carries no metadata UUID; a construction
failure of any other kind propagates as an uncaught exception instead, and
when the lookup succeeds the call returns no value. -/
theorem checkLayer_not_found_cases (env : ConnectEnv) (s : CachedOwsServices)
    (url name : String) (k : Bool) :
    (∀ m, lookupAssoc (s.bucket k) url = none →
      env url k = .error (.httpError m) →
      (s._checkLayer env url name k).1
        = .error (.raised (.layerNotFound name url none ("HTTPError: " ++ m)))) ∧
    (∀ m, lookupAssoc (s.bucket k) url = none →
      env url k = .error (.serviceException m) →
      (s._checkLayer env url name k).1
        = .error (.raised (.layerNotFound name url none ("ServiceException: " ++ m)))) ∧
    (∀ m, lookupAssoc (s.bucket k) url = none →
      env url k = .error (.attributeError m) →
      (s._checkLayer env url name k).1
        = .error (.raised (.layerNotFound name url none ("AttributeError: " ++ m)))) ∧
    (∀ m, lookupAssoc (s.bucket k) url = none →
      env url k = .error (.otherError m) →
      (s._checkLayer env url name k).1 = .error (.uncaught m)) ∧
    (∀ ep, lookupAssoc (s.bucket k) url = none → env url k = .ok ep →
      (lookupAssoc ep.contents name = none →
        (s._checkLayer env url name k).1
          = .error (.raised (.layerNotFound name url none "Layer not found on GS"))) ∧
      (∀ l, lookupAssoc ep.contents name = some l →
        (s._checkLayer env url name k).1 = .ok ())) ∧
    (∀ srv, lookupAssoc (s.bucket k) url = some srv →
      (lookupAssoc srv._ows.contents name = none →
        (s._checkLayer env url name k).1
          = .error (.raised (.layerNotFound name url none "Layer not found on GS"))) ∧
      (∀ l, lookupAssoc srv._ows.contents name = some l →
        (s._checkLayer env url name k).1 = .ok ())) := by
  refine ⟨?_, ?_, ?_, ?_, ?_, ?_⟩
  · intro m h1 h2
    rw [CachedOwsServices._checkLayer, h1, OwsServer.construct, h2]
  · intro m h1 h2
    rw [CachedOwsServices._checkLayer, h1, OwsServer.construct, h2]
  · intro m h1 h2
    rw [CachedOwsServices._checkLayer, h1, OwsServer.construct, h2]
  · intro m h1 h2
    rw [CachedOwsServices._checkLayer, h1, OwsServer.construct, h2]
  · intro ep h1 h2
    constructor
    · intro hn
      rw [CachedOwsServices._checkLayer, h1, OwsServer.construct, h2]
      simp [getLayerCheck, hn]
    · intro l hl
      rw [CachedOwsServices._checkLayer, h1, OwsServer.construct, h2]
      simp [getLayerCheck, hl]
  · intro srv h1
    constructor
    · intro hn
      rw [CachedOwsServices._checkLayer, h1]
      simp [getLayerCheck, hn]
    · intro l hl
      rw [CachedOwsServices._checkLayer, h1]
      simp [getLayerCheck, hl]

/-- An environment failing with a protocol-level service exception. -/
def envFailSvc : ConnectEnv := fun _ _ => .error (.serviceException "svc down")

/-- An environment failing with a response-shape (attribute) error. -/
def envFailAttr : ConnectEnv := fun _ _ => .error (.attributeError "no contents")

/-- An environment failing with an unclassified exception kind. -/
def envFailOther : ConnectEnv := fun _ _ => .error (.otherError "weird")

/-- Witness for C6: all three wrapped construction failures, the uncaught
kind, the direct-lookup failure with no UUID, and the silent success. -/
theorem checkLayer_not_found_cases_witness :
    (CachedOwsServices.empty._checkLayer envFailHttp "u" "n" true).1
      = .error (.raised (.layerNotFound "n" "u" none ("HTTPError: " ++ "boom"))) ∧
    (CachedOwsServices.empty._checkLayer envFailSvc "u" "n" true).1
      = .error (.raised (.layerNotFound "n" "u" none ("ServiceException: " ++ "svc down"))) ∧
    (CachedOwsServices.empty._checkLayer envFailAttr "u" "n" true).1
      = .error (.raised (.layerNotFound "n" "u" none ("AttributeError: " ++ "no contents"))) ∧
    (CachedOwsServices.empty._checkLayer envFailOther "u" "n" true).1
      = .error (.uncaught "weird") ∧
    (CachedOwsServices.empty._checkLayer envOneLayer "u" "nope" true).1
      = .error (.raised (.layerNotFound "nope" "u" none "Layer not found on GS")) ∧
    (CachedOwsServices.empty._checkLayer envOneLayer "u" "ws:roads" true).1 = .ok () := by
  refine ⟨?_, ?_, ?_, ?_, ?_, ?_⟩
  · exact (checkLayer_not_found_cases envFailHttp CachedOwsServices.empty "u" "n" true).1
      "boom" rfl rfl
  · exact (checkLayer_not_found_cases envFailSvc CachedOwsServices.empty "u" "n" true).2.1
      "svc down" rfl rfl
  · exact (checkLayer_not_found_cases envFailAttr CachedOwsServices.empty "u" "n" true).2.2.1
      "no contents" rfl rfl
  · exact (checkLayer_not_found_cases envFailOther CachedOwsServices.empty "u" "n" true).2.2.2.1
      "weird" rfl rfl
  · exact ((checkLayer_not_found_cases envOneLayer CachedOwsServices.empty "u" "nope" true).2.2.2.2.1
      epOneLayer rfl rfl).1 (by decide)
  · exact ((checkLayer_not_found_cases envOneLayer CachedOwsServices.empty "u" "ws:roads" true).2.2.2.2.1
      epOneLayer rfl rfl).2 { metadataUrls := [⟨"iso", "u1"⟩] } (by decide)

/-! ### Claim C9: construction failures are not memoized -/

/-- Claim C9: when endpoint construction inside a cache-miss call fails, the
bucket is left unchanged — no entry is inserted for that url — so a
subsequent call with the same (url, kind) performs a fresh construction
attempt; with an environment that then succeeds, the second call inserts the
freshly built server. -/
theorem construction_failure_not_memoized (env env' : ConnectEnv)
    (s : CachedOwsServices) (url name name' : String) (k : Bool)
    (e : ConnectError) (ep : OwsEndpoint)
    (hmiss : lookupAssoc (s.bucket k) url = none)
    (henv : env url k = .error e) (henv' : env' url k = .ok ep) :
    (s._checkLayer env url name k).2 = s ∧
    lookupAssoc ((((s._checkLayer env url name k).2)._checkLayer env' url name' k).2.bucket k) url
      = some { _ows := ep
               layersByWorkspace := populateLayers (ep.contents.map Prod.fst) } := by
  have h2 : (s._checkLayer env url name k).2 = s := by
    rw [CachedOwsServices._checkLayer, hmiss, OwsServer.construct, henv]
    rcases e with m | m | m | m <;> rfl
  refine ⟨h2, ?_⟩
  rw [h2]
  exact checkLayer_inserts env' s url name' k ep hmiss henv'

/-- Witness for C9: a failed construction, then a successful retry on the
same url inserting the endpoint. -/
theorem construction_failure_not_memoized_witness :
    (CachedOwsServices.empty._checkLayer envFailHttp "u" "n" true).2
      = CachedOwsServices.empty ∧
    lookupAssoc
      ((((CachedOwsServices.empty._checkLayer envFailHttp "u" "n" true).2)._checkLayer
          envOneLayer "u" "n" true).2.bucket true) "u"
      = some { _ows := epOneLayer
               layersByWorkspace := populateLayers (epOneLayer.contents.map Prod.fst) } :=
  construction_failure_not_memoized envFailHttp envOneLayer CachedOwsServices.empty
    "u" "n" "n" true (.httpError "boom") epOneLayer rfl rfl rfl

end OwsCheck
